import Mathlib

/-!
# Verification of the Linkly URL-shortener backend

Shallow embedding of the Linkly backend (FastAPI + SQLAlchemy + Redis) and
proofs about it.  The definitions below are translated from the Python
sources:

* `backend/app/utils.py`    — `encode_base62`
* `backend/app/models.py`   — `LinkStatus`, `URLMapping`
* `backend/app/crud.py`     — `get_url_by_short_code`, `create_short_url`,
                              `increment_visit_count`, `update_url_status`
* `backend/app/main.py`     — `build_cache_key`, `redirect_to_original_endpoint`,
                              the unauthenticated `update_link_status_endpoint`
* `backend/app/routes_links.py` — the owner-checked
                              `update_link_status_endpoint`, `soft_delete_link_route`

The durable store (Postgres/SQLite via SQLAlchemy) is modelled as a list of
records plus an autoincrement counter; the Redis cache as an association
list from keys to decoded values.  Failure of `db.flush()` / `db.commit()`
is modelled by explicit booleans; a Python exception with `db.rollback()`
leaves the committed store unchanged.
-/

namespace Linkly

/-- `models.LinkStatus`: an enum with values `Active` and `Inactive`. -/
inductive LinkStatus where
  | ACTIVE
  | INACTIVE
deriving DecidableEq

/-- A row of the `url_mappings` table (`models.URLMapping`).  `short_code`
is nullable (it is filled in only after the id is assigned), `owner_id` is a
nullable foreign key. -/
structure URLRecord where
  id : Nat
  short_code : Option String
  original_url : String
  visit_count : Nat
  status : LinkStatus
  owner_id : Option Nat
deriving DecidableEq

/-- The committed state of the SQL store: the rows of `url_mappings` and the
next autoincrement id. -/
structure DBState where
  records : List URLRecord
  nextId : Nat
deriving DecidableEq

/-- A decoded Redis value for a short-code key, as
`redirect_to_original_endpoint` classifies it:
* `badJson` — `json.loads` or `LinkStatus(status_str)` raises
  (`JSONDecodeError` / `ValueError` / `TypeError`); the code deletes the key
  and treats the lookup as a miss;
* `entry url st?` — a JSON object whose `"url"` field decodes to `url` and
  whose `"status"` field decodes to `st?` (`none` when absent or empty).
  The code treats `url = ""` or `st? = none` as a miss without deleting. -/
inductive CacheVal where
  | badJson
  | entry (url : String) (cachedStatus : Option LinkStatus)
deriving DecidableEq

/-- The whole server state: SQL store plus Redis cache (keys to decoded
values; TTL expiry is not modelled, an expired key is simply absent). -/
structure ServerState where
  db : DBState
  cache : List (String × CacheVal)
deriving DecidableEq

/-! ## Base-62 encoding (`utils.py`) -/

/-- `BASE62_CHARS = string.digits + string.ascii_letters`
(`"0"`–`"9"`, then `"a"`–`"z"`, then `"A"`–`"Z"`). -/
def BASE62_CHARS : List Char :=
  "0123456789abcdefghijklmnopqrstuvwxyzABCDEFGHIJKLMNOPQRSTUVWXYZ".toList

/-- `BASE = len(BASE62_CHARS)`. -/
def BASE : Nat := BASE62_CHARS.length

/-- `BASE62_CHARS[rem]` for a remainder `rem < 62`. -/
def base62Char (d : Nat) : Char := BASE62_CHARS.getD d '0'

/-- The digit list produced by the `while num > 0` loop of `encode_base62`,
most significant digit first (each iteration prepends `num % 62` and
continues with `num / 62`). -/
def toBase62Digits : Nat → List Nat
  | 0 => []
  | n + 1 => toBase62Digits ((n + 1) / 62) ++ [(n + 1) % 62]
decreasing_by
  exact Nat.div_lt_self (Nat.succ_pos n) (by omega)

/-- `utils.encode_base62`: `0` encodes to `"0"`, a positive number to its
base-62 digit string.  (The `num < 0` branch cannot arise for ids.) -/
def encode_base62 (num : Nat) : String :=
  if num = 0 then "0" else String.mk ((toBase62Digits num).map base62Char)

/-- The value of a most-significant-first base-62 digit list; the inverse
used to prove `encode_base62` injective. -/
def ofBase62Digits (l : List Nat) : Nat :=
  l.foldl (fun a d => a * 62 + d) 0

/-! ## Cache primitives (`cache.py`, `main.py`) -/

/-- `main.build_cache_key` (also redefined verbatim in `routes_links.py`):
the Redis key for a short code, namespaced under `linkly:short_code:`. -/
def build_cache_key (short_code : String) : String :=
  "linkly:short_code:" ++ short_code

/-- Redis `GET`: the value stored at `key`, if any. -/
def cacheLookup (c : List (String × CacheVal)) (key : String) : Option CacheVal :=
  (c.find? (fun p => p.1 = key)).map (·.2)

/-- Redis `SET` (the TTL argument is not modelled): stores `v` at `key`,
overwriting any previous value. -/
def cacheSet (c : List (String × CacheVal)) (key : String) (v : CacheVal) :
    List (String × CacheVal) :=
  (key, v) :: c.filter (fun p => p.1 ≠ key)

/-- Redis `DEL`: removes `key`. -/
def cacheDel (c : List (String × CacheVal)) (key : String) :
    List (String × CacheVal) :=
  c.filter (fun p => p.1 ≠ key)

/-! ## CRUD operations (`crud.py`) -/

/-- `crud.get_url_by_short_code`: `.filter(short_code == code).first()`. -/
def get_url_by_short_code (db : DBState) (short_code : String) : Option URLRecord :=
  db.records.find? (fun r => r.short_code = some short_code)

/-- `crud.increment_visit_count`: `db_url.visit_count += 1; db.commit()`.
The new value is computed from the session object `db_url` (a snapshot) and
written to the row with `db_url`'s primary key — a fetch-then-write, not an
atomic store-side add. -/
def increment_visit_count (db : DBState) (db_url : URLRecord) : DBState :=
  { db with
    records := db.records.map (fun r =>
      if r.id = db_url.id then { r with visit_count := db_url.visit_count + 1 } else r) }

/-- `crud.update_url_status`: `db_url.status = new_status; db.commit()`. -/
def update_url_status (db : DBState) (db_url : URLRecord) (new_status : LinkStatus) :
    DBState :=
  { db with
    records := db.records.map (fun r =>
      if r.id = db_url.id then { r with status := new_status } else r) }

/-- `crud.create_short_url`.  The record is inserted with defaults
`status = ACTIVE`, `visit_count = 0`, `short_code = NULL`; `db.flush()`
assigns the id; `encode_base62` derives the short code; `db.commit()` makes
insert and update durable together.  `failFlush` / `failCommit` model the
database raising at the respective step; every `except` branch does
`db.rollback()` and re-raises `ValueError`, leaving the committed store
unchanged.  (`encode_base62` itself cannot raise on a non-negative id.) -/
def create_short_url (db : DBState) (original_url : String) (owner_id : Nat)
    (failFlush failCommit : Bool) : DBState × Except String URLRecord :=
  if failFlush then
    (db, .error "Failed to generate ID during flush")
  else
    let newId := db.nextId
    let code := encode_base62 newId
    let newRec : URLRecord :=
      { id := newId, short_code := some code, original_url := original_url,
        visit_count := 0, status := .ACTIVE, owner_id := some owner_id }
    if failCommit then
      (db, .error "Failed during final commit")
    else
      ({ records := db.records ++ [newRec], nextId := db.nextId + 1 }, .ok newRec)

/-! ## The redirect endpoint (`main.redirect_to_original_endpoint`) -/

/-- The externally observable outcome of `GET /{short_code}`:
a 404, a 302 to the frontend `/inactive?code=...` page, or a 307 to the
original URL. -/
inductive ResolveOutcome where
  | notFound
  | inactiveRedirect (short_code : String)
  | activeRedirect (url : String)
deriving DecidableEq

/-- Steps 2–4 of `redirect_to_original_endpoint` (cache miss): query the
store; 404 when absent; 302 without caching when `INACTIVE`; when `ACTIVE`,
populate the cache, increment the visit count from the fetched row and 307
to the original URL.  (At step 5 `db_url_for_increment` is the row just
fetched, whose status is `ACTIVE`, so the increment always runs.) -/
def resolveFromDB (s : ServerState) (short_code : String) :
    ResolveOutcome × ServerState :=
  match get_url_by_short_code s.db short_code with
  | none => (.notFound, s)
  | some db_url =>
    if db_url.status = .INACTIVE then
      (.inactiveRedirect short_code, s)
    else
      let cache1 := cacheSet s.cache (build_cache_key short_code)
        (.entry db_url.original_url (some .ACTIVE))
      let db1 := increment_visit_count s.db db_url
      (.activeRedirect db_url.original_url, { db := db1, cache := cache1 })

/-- Steps 5–6 of `redirect_to_original_endpoint` after a cache hit with
`ACTIVE` status: re-fetch the row for the increment, increment only when it
is still present and `ACTIVE`, then 307 to the cached URL either way. -/
def finishActiveFromCache (s : ServerState) (short_code : String) (url : String) :
    ResolveOutcome × ServerState :=
  match get_url_by_short_code s.db short_code with
  | some db_url =>
    if db_url.status = .ACTIVE then
      (.activeRedirect url, { s with db := increment_visit_count s.db db_url })
    else
      (.activeRedirect url, s)
  | none => (.activeRedirect url, s)

/-- How step 1 of `redirect_to_original_endpoint` disposes of the cache
read. -/
inductive CacheDecision where
  | missKeep
  | missDelete
  | hitInactive
  | hitActive (url : String)
deriving DecidableEq

/-- The classification step 1 performs on the raw cache read: an absent key
is a miss; an undecodable value is a miss that also deletes the key; a
decoded value with an empty url or a missing status is a miss without
deletion (`if not original_url or link_status is None`); a well-formed
`INACTIVE` entry short-circuits; a well-formed `ACTIVE` entry serves the
cached url. -/
def classifyCache : Option CacheVal → CacheDecision
  | none => .missKeep
  | some .badJson => .missDelete
  | some (.entry url cachedStatus) =>
    if url = "" then .missKeep
    else
      match cachedStatus with
      | none => .missKeep
      | some .INACTIVE => .hitInactive
      | some .ACTIVE => .hitActive url

/-- `main.redirect_to_original_endpoint`, `GET /{short_code}`: read and
classify the cache (step 1), then either short-circuit on a cached
`INACTIVE`, finish from the cached `ACTIVE` entry (steps 5–6), or fall
through to the store (steps 2–4), deleting the key first when the cached
value was undecodable. -/
def redirect_to_original_endpoint (s : ServerState) (short_code : String) :
    ResolveOutcome × ServerState :=
  match classifyCache (cacheLookup s.cache (build_cache_key short_code)) with
  | .missKeep => resolveFromDB s short_code
  | .missDelete =>
      resolveFromDB { s with cache := cacheDel s.cache (build_cache_key short_code) }
        short_code
  | .hitInactive => (.inactiveRedirect short_code, s)
  | .hitActive url => finishActiveFromCache s short_code url

/-! ## Status-update endpoints -/

/-- The owner-checked `routes_links.update_link_status_endpoint`
(`PATCH /api/links/{short_code}/status` on the authenticated router).
404 `"Short code not found"` when the code is absent; 404
`"Short code not found or permission denied"` when the requester is not the
owner; otherwise `update_url_status` commits the new status and the updated
record is returned.  The cache-invalidation block in the source is commented
out (`# Need cache dependency`), so the cache is left untouched. -/
def update_link_status_endpoint (s : ServerState) (short_code : String)
    (new_status : LinkStatus) (current_user_id : Nat) :
    ServerState × Except (Nat × String) URLRecord :=
  match get_url_by_short_code s.db short_code with
  | none => (s, .error (404, "Short code not found"))
  | some db_url =>
    if db_url.owner_id ≠ some current_user_id then
      (s, .error (404, "Short code not found or permission denied"))
    else
      ({ s with db := update_url_status s.db db_url new_status },
       .ok { db_url with status := new_status })

/-- The unauthenticated `main.update_link_status_endpoint`
(`PATCH /api/links/{short_code}/status` in `main.py`): no owner check, and
it does call `cache.delete(cache_key)` after the commit. -/
def update_link_status_main (s : ServerState) (short_code : String)
    (new_status : LinkStatus) : ServerState × Except (Nat × String) URLRecord :=
  match get_url_by_short_code s.db short_code with
  | none => (s, .error (404, "Short code not found"))
  | some db_url =>
      ({ db := update_url_status s.db db_url new_status,
         cache := cacheDel s.cache (build_cache_key short_code) },
       .ok { db_url with status := new_status })

/-- `routes_links.soft_delete_link_route` (`DELETE /api/links/{short_code}`):
owner-checked soft delete to `INACTIVE`; a no-op when already inactive.  Its
cache-invalidation block is likewise commented out. -/
def soft_delete_link_route (s : ServerState) (short_code : String)
    (current_user_id : Nat) : ServerState × Except (Nat × String) Unit :=
  match get_url_by_short_code s.db short_code with
  | none => (s, .error (404, "Link not found"))
  | some link =>
    if link.owner_id ≠ some current_user_id then
      (s, .error (404, "Link not found or permission denied"))
    else if link.status = .INACTIVE then
      (s, .ok ())
    else
      ({ s with db := update_url_status s.db link .INACTIVE }, .ok ())

/-- `n` sequential (non-overlapping) redirects of the same short code: the
state threaded through `n` runs of `redirect_to_original_endpoint`. -/
def seqResolve (s : ServerState) (short_code : String) : Nat → ServerState
  | 0 => s
  | n + 1 => seqResolve (redirect_to_original_endpoint s short_code).2 short_code n

/-- Well-formedness of the cache with respect to one short code: the key
holds no well-formed `INACTIVE` entry (any `INACTIVE` entry present has an
empty url and is therefore treated as a miss). -/
def noInactiveCachedValid (s : ServerState) (short_code : String) : Bool :=
  match cacheLookup s.cache (build_cache_key short_code) with
  | some (.entry url (some .INACTIVE)) => url == ""
  | _ => true

/-! ## Concrete fixtures used to evaluate the endpoints -/

/-- An active link owned by user 1, cached as `ACTIVE`. -/
def linkC1 : URLRecord :=
  { id := 1, short_code := some "c1", original_url := "https://live.example",
    visit_count := 0, status := .ACTIVE, owner_id := some 1 }

def sC1 : ServerState :=
  { db := { records := [linkC1], nextId := 2 },
    cache := [(build_cache_key "c1", .entry "https://live.example" (some .ACTIVE))] }

/-- A deactivated link with an empty cache. -/
def linkC2 : URLRecord :=
  { id := 1, short_code := some "c2", original_url := "https://dead.example",
    visit_count := 5, status := .INACTIVE, owner_id := some 1 }

def sC2 : ServerState := { db := { records := [linkC2], nextId := 2 }, cache := [] }

def dbC3 : DBState := { records := [], nextId := 5 }

/-- The record `create_short_url` commits on `dbC3`. -/
def recC3 : URLRecord :=
  { id := 5, short_code := some (encode_base62 5), original_url := "https://new.example",
    visit_count := 0, status := .ACTIVE, owner_id := some 7 }

def dbC4 : DBState :=
  { records := [{ id := 1, short_code := some "c4", original_url := "https://old.example",
                  visit_count := 0, status := .ACTIVE, owner_id := some 1 }],
    nextId := 2 }

/-- An active link with three prior visits and an empty cache. -/
def linkC5 : URLRecord :=
  { id := 1, short_code := some "c5", original_url := "https://active.example",
    visit_count := 3, status := .ACTIVE, owner_id := some 1 }

def sC5 : ServerState := { db := { records := [linkC5], nextId := 2 }, cache := [] }

/-- A cache holding a well-formed `INACTIVE` entry for `"c6"` over an empty
store. -/
def sC6 : ServerState :=
  { db := { records := [], nextId := 1 },
    cache := [(build_cache_key "c6", .entry "https://gone.example" (some .INACTIVE))] }

/-- An active link owned by user 1, to be updated by user 2. -/
def linkC7 : URLRecord :=
  { id := 1, short_code := some "c7", original_url := "https://owned.example",
    visit_count := 0, status := .ACTIVE, owner_id := some 1 }

def sC7 : ServerState := { db := { records := [linkC7], nextId := 2 }, cache := [] }

/-- An active link resolved concurrently by two sessions. -/
def linkC9 : URLRecord :=
  { id := 1, short_code := some "c9", original_url := "https://hot.example",
    visit_count := 0, status := .ACTIVE, owner_id := some 1 }

def dbC9 : DBState := { records := [linkC9], nextId := 2 }

def sC9 : ServerState := { db := dbC9, cache := [] }

/-- A link already deactivated in the store while its cache entry still says
`ACTIVE` (the entry has not expired and was never invalidated). -/
def linkC10 : URLRecord :=
  { id := 1, short_code := some "c10", original_url := "https://stale.example",
    visit_count := 4, status := .INACTIVE, owner_id := some 1 }

def sC10 : ServerState :=
  { db := { records := [linkC10], nextId := 2 },
    cache := [(build_cache_key "c10", .entry "https://stale.example" (some .ACTIVE))] }

/-! ## Properties of the base-62 encoder -/

theorem toBase62Digits_lt (n : Nat) : ∀ d ∈ toBase62Digits n, d < 62 := by
  induction n using Nat.strong_induction_on with
  | _ n ih =>
    match n with
    | 0 => intro d hd; simp [toBase62Digits] at hd
    | m + 1 =>
      intro d hd
      rw [toBase62Digits] at hd
      rcases List.mem_append.mp hd with h | h
      · exact ih ((m + 1) / 62) (Nat.div_lt_self (Nat.succ_pos m) (by omega)) d h
      · rcases List.mem_singleton.mp h with rfl
        omega

theorem ofBase62Digits_toBase62Digits (n : Nat) :
    ofBase62Digits (toBase62Digits n) = n := by
  induction n using Nat.strong_induction_on with
  | _ n ih =>
    match n with
    | 0 => simp [toBase62Digits, ofBase62Digits]
    | m + 1 =>
      rw [toBase62Digits]
      show ((toBase62Digits ((m + 1) / 62)) ++ [(m + 1) % 62]).foldl
        (fun a d => a * 62 + d) 0 = m + 1
      rw [List.foldl_append]
      show (ofBase62Digits (toBase62Digits ((m + 1) / 62))) * 62 + (m + 1) % 62 = m + 1
      rw [ih ((m + 1) / 62) (Nat.div_lt_self (Nat.succ_pos m) (by omega))]
      omega

theorem base62Chars_nodup : BASE62_CHARS.Nodup := by decide

theorem base62Char_injOn (d1 d2 : Nat) (h1 : d1 < 62) (h2 : d2 < 62)
    (h : base62Char d1 = base62Char d2) : d1 = d2 := by
  have hlen : BASE62_CHARS.length = 62 := by decide
  have e1 : base62Char d1 = BASE62_CHARS.get ⟨d1, by omega⟩ := by
    rw [List.get_eq_getElem]
    exact List.getD_eq_getElem BASE62_CHARS '0' (by omega)
  have e2 : base62Char d2 = BASE62_CHARS.get ⟨d2, by omega⟩ := by
    rw [List.get_eq_getElem]
    exact List.getD_eq_getElem BASE62_CHARS '0' (by omega)
  rw [e1, e2] at h
  have hfin := (List.Nodup.get_inj_iff base62Chars_nodup).mp h
  exact congrArg Fin.val hfin

theorem map_base62Char_injOn : ∀ l1 l2 : List Nat, (∀ d ∈ l1, d < 62) →
    (∀ d ∈ l2, d < 62) → l1.map base62Char = l2.map base62Char → l1 = l2 := by
  intro l1
  induction l1 with
  | nil =>
    intro l2 _ _ h
    cases l2 with
    | nil => rfl
    | cons b t => simp at h
  | cons a t ih =>
    intro l2 h1 h2 h
    cases l2 with
    | nil => simp at h
    | cons b t2 =>
      simp only [List.map_cons, List.cons.injEq] at h
      have hab : a = b :=
        base62Char_injOn a b (h1 a (List.mem_cons_self a t))
          (h2 b (List.mem_cons_self b t2)) h.1
      have ht : t = t2 :=
        ih t2 (fun d hd => h1 d (List.mem_cons_of_mem a hd))
          (fun d hd => h2 d (List.mem_cons_of_mem b hd)) h.2
      rw [hab, ht]

/-! ## Helper lemmas about the store and the cache -/

/-- Incrementing through a fetched row changes neither the short code nor
the position of any row, so a lookup by short code afterwards returns the
fetched row with its counter bumped from the snapshot. -/
theorem get_url_after_increment (db : DBState) (short_code : String) (r : URLRecord)
    (hr : get_url_by_short_code db short_code = some r) :
    get_url_by_short_code (increment_visit_count db r) short_code
      = some { r with visit_count := r.visit_count + 1 } := by
  unfold get_url_by_short_code increment_visit_count
  unfold get_url_by_short_code at hr
  rw [List.find?_map]
  have hp : ((fun x : URLRecord => decide (x.short_code = some short_code)) ∘
      (fun x : URLRecord =>
        if x.id = r.id then { x with visit_count := r.visit_count + 1 } else x))
      = fun x : URLRecord => decide (x.short_code = some short_code) := by
    funext x
    by_cases h : x.id = r.id <;> simp [Function.comp, h]
  rw [hp, hr]
  simp

/-- Redis `SET` followed by `GET` on the same key returns the stored value. -/
theorem cacheLookup_cacheSet (c : List (String × CacheVal)) (key : String) (v : CacheVal) :
    cacheLookup (cacheSet c key v) key = some v := by
  simp [cacheLookup, cacheSet]

/-! ## Claim theorems -/

/-- C3: every successful `create_short_url` returns a record whose
`short_code` is `encode_base62` of its store-assigned id, with
`status = ACTIVE` and `visit_count = 0` (and the id is the store's next
autoincrement value). -/
theorem create_short_url_spec (db : DBState) (u : String) (o : Nat)
    (f1 f2 : Bool) (db' : DBState) (r : URLRecord)
    (h : create_short_url db u o f1 f2 = (db', .ok r)) :
    r.short_code = some (encode_base62 r.id) ∧ r.status = .ACTIVE ∧
      r.visit_count = 0 ∧ r.id = db.nextId := by
  unfold create_short_url at h
  by_cases hf1 : f1 = true <;> by_cases hf2 : f2 = true <;> simp [hf1, hf2] at h
  obtain ⟨-, hr⟩ := h
  rw [← hr]
  exact ⟨rfl, rfl, rfl, rfl⟩

/-- Witness for C3: creating `"https://new.example"` for owner 7 on a store
whose next id is 5. -/
theorem create_short_url_spec_witness :
    recC3.short_code = some (encode_base62 recC3.id) ∧ recC3.status = .ACTIVE ∧
      recC3.visit_count = 0 ∧ recC3.id = dbC3.nextId :=
  create_short_url_spec dbC3 "https://new.example" 7 false false
    { records := [recC3], nextId := 6 } recC3 rfl

/-- C4: creation is atomic.  Whatever fails, the committed store after
`create_short_url` never exposes a record with a null `short_code` (given it
exposed none before), and on any error the store is exactly the input
store. -/
theorem create_short_url_atomic (db : DBState) (u : String) (o : Nat)
    (f1 f2 : Bool) (hdb : ∀ x ∈ db.records, x.short_code ≠ none) :
    (∀ e, (create_short_url db u o f1 f2).2 = .error e →
      (create_short_url db u o f1 f2).1 = db) ∧
    (∀ x ∈ (create_short_url db u o f1 f2).1.records, x.short_code ≠ none) := by
  unfold create_short_url
  cases f1 with
  | true => exact ⟨fun e _ => rfl, hdb⟩
  | false =>
    cases f2 with
    | true => exact ⟨fun e _ => rfl, hdb⟩
    | false =>
      refine ⟨fun e he => ?_, fun x hx => ?_⟩
      · exact absurd he (by simp)
      · rcases List.mem_append.mp hx with h | h
        · exact hdb x h
        · rcases List.mem_singleton.mp h with rfl
          simp

/-- Witness for C4: a failing final commit on a one-record store leaves the
store unchanged. -/
theorem create_short_url_atomic_witness :
    (create_short_url dbC4 "https://u.example" 9 false true).1 = dbC4 :=
  (create_short_url_atomic dbC4 "https://u.example" 9 false true (by decide)).1
    "Failed during final commit" rfl

/-- C6: a well-formed cached `INACTIVE` entry short-circuits the redirect:
the outcome is the inactive 302 and the whole server state — in particular
the durable store — is unchanged (no store read takes effect, no counter
increment). -/
theorem cached_inactive_short_circuit (s : ServerState) (short_code url : String)
    (hurl : url ≠ "")
    (h : cacheLookup s.cache (build_cache_key short_code)
      = some (.entry url (some .INACTIVE))) :
    redirect_to_original_endpoint s short_code = (.inactiveRedirect short_code, s) := by
  unfold redirect_to_original_endpoint
  rw [h]
  simp [classifyCache, hurl]

/-- Witness for C6 on a cache holding an `INACTIVE` entry for `"c6"`. -/
theorem cached_inactive_short_circuit_witness :
    redirect_to_original_endpoint sC6 "c6" = (.inactiveRedirect "c6", sC6) :=
  cached_inactive_short_circuit sC6 "c6" "https://gone.example" (by decide) rfl

/-- C2, counterexample: resolving the deactivated code `"c2"` on a cache
miss returns the inactive 302 but writes no cache entry at all — the final
cache is still empty, refuting "writes a CacheEntry with
`cachedStatus = Inactive` before returning". -/
theorem resolve_miss_inactive_writes_no_entry_cex :
    redirect_to_original_endpoint sC2 "c2" = (.inactiveRedirect "c2", sC2) ∧
    cacheLookup (redirect_to_original_endpoint sC2 "c2").2.cache
      (build_cache_key "c2") = none := by
  constructor <;> rfl

/-- C2, amended: on a cache miss where the record exists with status
`INACTIVE`, the engine returns the inactive outcome and leaves the whole
state — including the cache — unchanged; only `ACTIVE` results are written
to the cache. -/
theorem resolve_miss_inactive_no_cache_write (s : ServerState) (short_code : String)
    (r : URLRecord)
    (hc : cacheLookup s.cache (build_cache_key short_code) = none)
    (hr : get_url_by_short_code s.db short_code = some r)
    (hst : r.status = .INACTIVE) :
    redirect_to_original_endpoint s short_code = (.inactiveRedirect short_code, s) := by
  unfold redirect_to_original_endpoint
  rw [hc]
  show resolveFromDB s short_code = (.inactiveRedirect short_code, s)
  unfold resolveFromDB
  simp [hr, hst]

/-- Witness for the amended C2 on the deactivated link `"c2"`. -/
theorem resolve_miss_inactive_no_cache_write_witness :
    redirect_to_original_endpoint sC2 "c2" = (.inactiveRedirect "c2", sC2) :=
  resolve_miss_inactive_no_cache_write sC2 "c2" linkC2 rfl rfl rfl

/-- C1: the owner-checked `PATCH /api/links/{short_code}/status` succeeds in
deactivating `"c1"` yet leaves the stale `ACTIVE` cache entry in place
(its invalidation block is commented out), so the next resolve takes the
cache-hit path and serves the active 307 instead of the inactive outcome. -/
theorem update_link_status_stale_cache_bug :
    (update_link_status_endpoint sC1 "c1" .INACTIVE 1).2
      = .ok { linkC1 with status := .INACTIVE } ∧
    (update_link_status_endpoint sC1 "c1" .INACTIVE 1).1.cache = sC1.cache ∧
    (redirect_to_original_endpoint
        (update_link_status_endpoint sC1 "c1" .INACTIVE 1).1 "c1").1
      = .activeRedirect "https://live.example" := by
  refine ⟨rfl, rfl, rfl⟩

/-- C7, counterexample: a non-owner status update on an existing code and a
status update on a nonexistent code both fail with HTTP 404, but the error
payloads differ (`"Short code not found or permission denied"` vs
`"Short code not found"`), so the two outcomes are distinguishable. -/
theorem owner_mismatch_distinguishable_cex :
    (update_link_status_endpoint sC7 "c7" .INACTIVE 2).2
      = .error (404, "Short code not found or permission denied") ∧
    (update_link_status_endpoint sC7 "nope" .INACTIVE 2).2
      = .error (404, "Short code not found") ∧
    (update_link_status_endpoint sC7 "c7" .INACTIVE 2).2
      ≠ (update_link_status_endpoint sC7 "nope" .INACTIVE 2).2 := by
  refine ⟨rfl, rfl, fun h => ?_⟩
  have h' : (Except.error (404, "Short code not found or permission denied") :
      Except (Nat × String) URLRecord) = .error (404, "Short code not found") := h
  injection h' with h''
  exact absurd h'' (by decide)

/-- C7, amended: a status update by a non-owner fails with the same HTTP
status code 404 as a nonexistent code and leaves the server state (hence the
record's status) unchanged, but its error detail is
`"Short code not found or permission denied"`, which differs from the
nonexistent-code detail `"Short code not found"`. -/
theorem owner_mismatch_404_unchanged (s : ServerState) (short_code : String)
    (ns : LinkStatus) (uid : Nat) (r : URLRecord)
    (hr : get_url_by_short_code s.db short_code = some r)
    (hown : r.owner_id ≠ some uid) :
    update_link_status_endpoint s short_code ns uid
      = (s, .error (404, "Short code not found or permission denied")) := by
  unfold update_link_status_endpoint
  rw [hr]
  simp [hown]

/-- Witness for the amended C7: user 2 trying to deactivate user 1's link. -/
theorem owner_mismatch_404_unchanged_witness :
    update_link_status_endpoint sC7 "c7" .INACTIVE 2
      = (sC7, .error (404, "Short code not found or permission denied")) :=
  owner_mismatch_404_unchanged sC7 "c7" .INACTIVE 2 linkC7 rfl (by decide)

/-- C8: the code generator is injective on positive integers: for all
`0 < n1`, `0 < n2` with `n1 ≠ n2`, `encode_base62 n1 ≠ encode_base62 n2`,
so distinct store-assigned ids always yield distinct short codes. -/
theorem encode_base62_injective_on_pos (n1 n2 : Nat) (h1 : 0 < n1) (h2 : 0 < n2)
    (hne : n1 ≠ n2) : encode_base62 n1 ≠ encode_base62 n2 := by
  intro h
  unfold encode_base62 at h
  rw [if_neg (by omega), if_neg (by omega)] at h
  have hmap : (toBase62Digits n1).map base62Char = (toBase62Digits n2).map base62Char := by
    injection h
  have hdig : toBase62Digits n1 = toBase62Digits n2 :=
    map_base62Char_injOn _ _ (toBase62Digits_lt n1) (toBase62Digits_lt n2) hmap
  have := congrArg ofBase62Digits hdig
  rw [ofBase62Digits_toBase62Digits, ofBase62Digits_toBase62Digits] at this
  exact hne this

/-- Witness for C8 at `n1 = 1`, `n2 = 63` (two ids mapping into the same
digit alphabet). -/
theorem encode_base62_injective_on_pos_witness :
    encode_base62 1 ≠ encode_base62 63 :=
  encode_base62_injective_on_pos 1 63 (by decide) (by decide) (by decide)

/-! ## The store path and sequential resolution -/

/-- `resolveFromDB` on an `ACTIVE` record: the active 307, the incremented
store and the freshly populated cache entry. -/
theorem resolveFromDB_active (s : ServerState) (short_code : String) (r : URLRecord)
    (hr : get_url_by_short_code s.db short_code = some r) (hst : r.status = .ACTIVE) :
    resolveFromDB s short_code =
      (.activeRedirect r.original_url,
       { db := increment_visit_count s.db r,
         cache := cacheSet s.cache (build_cache_key short_code)
           (.entry r.original_url (some .ACTIVE)) }) := by
  unfold resolveFromDB
  simp [hr, hst]

/-- `classifyCache` yields `hitInactive` only on a well-formed `INACTIVE`
entry. -/
theorem classify_hitInactive (v : Option CacheVal)
    (h : classifyCache v = .hitInactive) :
    ∃ url, url ≠ "" ∧ v = some (.entry url (some .INACTIVE)) := by
  match v with
  | none => simp [classifyCache] at h
  | some .badJson => simp [classifyCache] at h
  | some (.entry url cst) =>
    by_cases hurl : url = ""
    · simp [classifyCache, hurl] at h
    · match cst with
      | none => simp [classifyCache, hurl] at h
      | some .ACTIVE => simp [classifyCache, hurl] at h
      | some .INACTIVE => exact ⟨url, hurl, rfl⟩

/-- One store-path resolution of an `ACTIVE` record bumps its counter by one
and leaves no well-formed `INACTIVE` entry cached. -/
theorem stepDB (s : ServerState) (short_code : String) (r : URLRecord)
    (hr : get_url_by_short_code s.db short_code = some r) (hst : r.status = .ACTIVE) :
    get_url_by_short_code (resolveFromDB s short_code).2.db short_code
      = some { r with visit_count := r.visit_count + 1 } ∧
    noInactiveCachedValid (resolveFromDB s short_code).2 short_code = true := by
  rw [resolveFromDB_active s short_code r hr hst]
  refine ⟨get_url_after_increment s.db short_code r hr, ?_⟩
  unfold noInactiveCachedValid
  rw [cacheLookup_cacheSet]

/-- One cache-hit resolution over a still-`ACTIVE` store record bumps its
counter by one and leaves the cache untouched. -/
theorem stepCacheHit (s : ServerState) (short_code url : String) (r : URLRecord)
    (hr : get_url_by_short_code s.db short_code = some r) (hst : r.status = .ACTIVE)
    (hcache : noInactiveCachedValid s short_code = true) :
    get_url_by_short_code (finishActiveFromCache s short_code url).2.db short_code
      = some { r with visit_count := r.visit_count + 1 } ∧
    noInactiveCachedValid (finishActiveFromCache s short_code url).2 short_code
      = true := by
  have hfin : finishActiveFromCache s short_code url
      = (.activeRedirect url, { s with db := increment_visit_count s.db r }) := by
    unfold finishActiveFromCache
    simp [hr, hst]
  rw [hfin]
  exact ⟨get_url_after_increment s.db short_code r hr, hcache⟩

/-- One full `GET /{short_code}` over an `ACTIVE` record, whatever the cache
holds (as long as it is not a well-formed `INACTIVE` entry), bumps the
record's counter by exactly one and preserves that cache condition. -/
theorem resolve_active_step (s : ServerState) (short_code : String) (r : URLRecord)
    (hr : get_url_by_short_code s.db short_code = some r) (hst : r.status = .ACTIVE)
    (hcache : noInactiveCachedValid s short_code = true) :
    get_url_by_short_code (redirect_to_original_endpoint s short_code).2.db short_code
      = some { r with visit_count := r.visit_count + 1 } ∧
    noInactiveCachedValid (redirect_to_original_endpoint s short_code).2 short_code
      = true := by
  unfold redirect_to_original_endpoint
  cases hcd : classifyCache (cacheLookup s.cache (build_cache_key short_code)) with
  | missKeep => exact stepDB s short_code r hr hst
  | missDelete =>
      exact stepDB { s with cache := cacheDel s.cache (build_cache_key short_code) }
        short_code r hr hst
  | hitInactive =>
      exfalso
      obtain ⟨url, hurl, hv⟩ := classify_hitInactive _ hcd
      unfold noInactiveCachedValid at hcache
      rw [hv] at hcache
      simp at hcache
      exact hurl hcache
  | hitActive url => exact stepCacheHit s short_code url r hr hst hcache

/-- C5: on the store path (no usable cache entry): an unknown code yields
`notFound` with the state unchanged; a known `INACTIVE` record yields the
inactive outcome with the state (in particular its `visit_count`) unchanged;
a known `ACTIVE` record yields the active redirect to its `original_url`
and its `visit_count` incremented by exactly one. -/
theorem resolve_store_path_spec (s : ServerState) (short_code : String)
    (hc : cacheLookup s.cache (build_cache_key short_code) = none) :
    (get_url_by_short_code s.db short_code = none →
      redirect_to_original_endpoint s short_code = (.notFound, s)) ∧
    (∀ r, get_url_by_short_code s.db short_code = some r → r.status = .INACTIVE →
      redirect_to_original_endpoint s short_code = (.inactiveRedirect short_code, s)) ∧
    (∀ r, get_url_by_short_code s.db short_code = some r → r.status = .ACTIVE →
      (redirect_to_original_endpoint s short_code).1 = .activeRedirect r.original_url ∧
      (redirect_to_original_endpoint s short_code).2.db = increment_visit_count s.db r ∧
      get_url_by_short_code (redirect_to_original_endpoint s short_code).2.db short_code
        = some { r with visit_count := r.visit_count + 1 }) := by
  have hred : redirect_to_original_endpoint s short_code = resolveFromDB s short_code := by
    unfold redirect_to_original_endpoint
    rw [hc]
    rfl
  refine ⟨?_, ?_, ?_⟩
  · intro h
    rw [hred]
    unfold resolveFromDB
    rw [h]
  · intro r h hst
    rw [hred]
    unfold resolveFromDB
    simp [h, hst]
  · intro r h hst
    rw [hred, resolveFromDB_active s short_code r h hst]
    exact ⟨rfl, rfl, get_url_after_increment s.db short_code r h⟩

/-- Witness for C5: resolving the active link `"c5"` (3 prior visits) on an
empty cache. -/
theorem resolve_store_path_spec_witness :
    (redirect_to_original_endpoint sC5 "c5").1 = .activeRedirect linkC5.original_url ∧
    (redirect_to_original_endpoint sC5 "c5").2.db = increment_visit_count sC5.db linkC5 ∧
    get_url_by_short_code (redirect_to_original_endpoint sC5 "c5").2.db "c5"
      = some { linkC5 with visit_count := linkC5.visit_count + 1 } :=
  (resolve_store_path_spec sC5 "c5" rfl).2.2 linkC5 rfl rfl

/-- C10: on a cache hit with a well-formed `ACTIVE` entry, the endpoint
serves the cached url whatever the store holds; it re-fetches the record and
increments only when it is still present and `ACTIVE`; when the store copy
is absent or `INACTIVE`, the cached redirect is still served and the state —
hence every `visit_count` — is unchanged. -/
theorem cached_active_resolve_spec (s : ServerState) (short_code url : String)
    (hurl : url ≠ "")
    (hc : cacheLookup s.cache (build_cache_key short_code)
      = some (.entry url (some .ACTIVE))) :
    (redirect_to_original_endpoint s short_code).1 = .activeRedirect url ∧
    (get_url_by_short_code s.db short_code = none →
      (redirect_to_original_endpoint s short_code).2 = s) ∧
    (∀ r, get_url_by_short_code s.db short_code = some r → r.status = .INACTIVE →
      (redirect_to_original_endpoint s short_code).2 = s) ∧
    (∀ r, get_url_by_short_code s.db short_code = some r → r.status = .ACTIVE →
      (redirect_to_original_endpoint s short_code).2
        = { s with db := increment_visit_count s.db r }) := by
  have hred : redirect_to_original_endpoint s short_code
      = finishActiveFromCache s short_code url := by
    unfold redirect_to_original_endpoint
    rw [hc]
    simp [classifyCache, hurl]
  refine ⟨?_, ?_, ?_, ?_⟩ <;> rw [hred] <;> unfold finishActiveFromCache
  · cases hf : get_url_by_short_code s.db short_code with
    | none => rfl
    | some r => by_cases hst : r.status = .ACTIVE <;> simp [hst]
  · intro h
    rw [h]
  · intro r h hst
    simp [h, hst]
  · intro r h hst
    simp [h, hst]

/-- Witness for C10: a stale `ACTIVE` cache entry over a store whose record
was deactivated: the cached redirect is served and the state is unchanged. -/
theorem cached_active_resolve_spec_witness :
    (redirect_to_original_endpoint sC10 "c10").1
      = .activeRedirect "https://stale.example" ∧
    (redirect_to_original_endpoint sC10 "c10").2 = sC10 :=
  ⟨(cached_active_resolve_spec sC10 "c10" "https://stale.example" (by decide) rfl).1,
   (cached_active_resolve_spec sC10 "c10" "https://stale.example" (by decide) rfl).2.2.1
     linkC10 rfl rfl⟩

/-- C9, counterexample: the increment is a fetch-then-write.  Two sessions
that both fetch the record of `"c9"` (count 0) before either commits — the
interleaving "fetch, fetch, write, write" — leave the counter at 1, not 2:
one increment is lost, refuting "a single atomic add, never a
fetch-then-write, so no increments are lost". -/
theorem increment_lost_update_cex :
    get_url_by_short_code dbC9 "c9" = some linkC9 ∧
    (get_url_by_short_code
        (increment_visit_count (increment_visit_count dbC9 linkC9) linkC9) "c9").map
      (fun x => x.visit_count) = some 1 ∧
    (some 1 : Option Nat) ≠ some 2 := by
  refine ⟨rfl, rfl, by decide⟩

/-- C9, amended: `n` sequential (non-overlapping) resolves of an `ACTIVE`
record — each one performing the code's fetch-then-write increment on a
fresh snapshot — increase its `visit_count` by exactly `n`; only overlapping
resolves can lose increments. -/
theorem seq_resolve_visit_count (s : ServerState) (short_code : String)
    (r : URLRecord) (n : Nat)
    (hr : get_url_by_short_code s.db short_code = some r)
    (hst : r.status = .ACTIVE)
    (hcache : noInactiveCachedValid s short_code = true) :
    (get_url_by_short_code (seqResolve s short_code n).db short_code).map
      (fun x => x.visit_count) = some (r.visit_count + n) := by
  induction n generalizing s r with
  | zero => simp [seqResolve, hr]
  | succ n ih =>
    rw [seqResolve]
    obtain ⟨hr', hcache'⟩ := resolve_active_step s short_code r hr hst hcache
    have hrec := ih (redirect_to_original_endpoint s short_code).2
      { r with visit_count := r.visit_count + 1 } hr' hst hcache'
    rw [hrec]
    have : r.visit_count + 1 + n = r.visit_count + (n + 1) := by omega
    rw [this]

/-- Witness for the amended C9: three sequential resolves of `"c9"`
(count 0, empty cache) leave the counter at 3. -/
theorem seq_resolve_visit_count_witness :
    (get_url_by_short_code (seqResolve sC9 "c9" 3).db "c9").map
      (fun x => x.visit_count) = some (linkC9.visit_count + 3) :=
  seq_resolve_visit_count sC9 "c9" linkC9 3 rfl rfl rfl

end Linkly
